import Mathlib

/-!
# Verification of the oauthenticator identity-provider policy engine

Shallow embedding of `src/oauthenticator/cilogon.py` and
`src/oauthenticator/generic.py`: per-provider username derivation,
provider-entity validation, group-membership extraction and the layered
allow/deny decision chain, together with theorems settling the spec claims.

Python values occurring in claims documents (`user_info` dicts) are modelled
by the inductive type `PyVal`; Python dictionaries are association lists in
insertion order.  Fallible Python operations (`d[k]`, `list[i]`, attribute
access on the wrong type, `raise`) are modelled with `Except Err`.
-/

/-- Errors a modelled operation can raise.  `httpError` models
`tornado.web.HTTPError(code, msg)`, `valueError` models `ValueError`;
`keyError`, `indexError`, `typeError` and `attributeError` model the
corresponding built-in Python exceptions escaping uncaught. -/
inductive Err where
  | typeError
  | keyError
  | indexError
  | attributeError
  | valueError (msg : String)
  | httpError (code : Nat) (msg : String)
deriving DecidableEq, Repr

/-- A Python value as it can occur in an OAuth `user_info` claims document:
`None`, a string, an integer, a list, or a string-keyed dict (kept as an
association list in insertion order, without duplicate keys in practice). -/
inductive PyVal where
  | none
  | str (s : String)
  | int (n : Int)
  | list (xs : List PyVal)
  | dict (entries : List (String × PyVal))

mutual

def PyVal.decEq : (a b : PyVal) → Decidable (a = b)
  | .none, .none => .isTrue rfl
  | .none, .str _ => .isFalse (fun h => PyVal.noConfusion h)
  | .none, .int _ => .isFalse (fun h => PyVal.noConfusion h)
  | .none, .list _ => .isFalse (fun h => PyVal.noConfusion h)
  | .none, .dict _ => .isFalse (fun h => PyVal.noConfusion h)
  | .str _, .none => .isFalse (fun h => PyVal.noConfusion h)
  | .str a, .str b =>
    if h : a = b then .isTrue (congrArg PyVal.str h)
    else .isFalse (fun hh => h (PyVal.str.inj hh))
  | .str _, .int _ => .isFalse (fun h => PyVal.noConfusion h)
  | .str _, .list _ => .isFalse (fun h => PyVal.noConfusion h)
  | .str _, .dict _ => .isFalse (fun h => PyVal.noConfusion h)
  | .int _, .none => .isFalse (fun h => PyVal.noConfusion h)
  | .int _, .str _ => .isFalse (fun h => PyVal.noConfusion h)
  | .int a, .int b =>
    if h : a = b then .isTrue (congrArg PyVal.int h)
    else .isFalse (fun hh => h (PyVal.int.inj hh))
  | .int _, .list _ => .isFalse (fun h => PyVal.noConfusion h)
  | .int _, .dict _ => .isFalse (fun h => PyVal.noConfusion h)
  | .list _, .none => .isFalse (fun h => PyVal.noConfusion h)
  | .list _, .str _ => .isFalse (fun h => PyVal.noConfusion h)
  | .list _, .int _ => .isFalse (fun h => PyVal.noConfusion h)
  | .list a, .list b =>
    match PyVal.decEqList a b with
    | .isTrue h => .isTrue (congrArg PyVal.list h)
    | .isFalse h => .isFalse (fun hh => h (PyVal.list.inj hh))
  | .list _, .dict _ => .isFalse (fun h => PyVal.noConfusion h)
  | .dict _, .none => .isFalse (fun h => PyVal.noConfusion h)
  | .dict _, .str _ => .isFalse (fun h => PyVal.noConfusion h)
  | .dict _, .int _ => .isFalse (fun h => PyVal.noConfusion h)
  | .dict _, .list _ => .isFalse (fun h => PyVal.noConfusion h)
  | .dict a, .dict b =>
    match PyVal.decEqPairs a b with
    | .isTrue h => .isTrue (congrArg PyVal.dict h)
    | .isFalse h => .isFalse (fun hh => h (PyVal.dict.inj hh))

def PyVal.decEqList : (a b : List PyVal) → Decidable (a = b)
  | [], [] => .isTrue rfl
  | [], _ :: _ => .isFalse (fun h => List.noConfusion h)
  | _ :: _, [] => .isFalse (fun h => List.noConfusion h)
  | x :: xs, y :: ys =>
    match PyVal.decEq x y with
    | .isTrue h1 =>
      match PyVal.decEqList xs ys with
      | .isTrue h2 => .isTrue (h1 ▸ h2 ▸ rfl)
      | .isFalse h2 => .isFalse (fun hh => h2 (List.cons.inj hh).2)
    | .isFalse h1 => .isFalse (fun hh => h1 (List.cons.inj hh).1)

def PyVal.decEqPairs : (a b : List (String × PyVal)) → Decidable (a = b)
  | [], [] => .isTrue rfl
  | [], _ :: _ => .isFalse (fun h => List.noConfusion h)
  | _ :: _, [] => .isFalse (fun h => List.noConfusion h)
  | (k1, v1) :: xs, (k2, v2) :: ys =>
    if hk : k1 = k2 then
      match PyVal.decEq v1 v2 with
      | .isTrue hv =>
        match PyVal.decEqPairs xs ys with
        | .isTrue ht => .isTrue (by rw [hk, hv, ht])
        | .isFalse ht => .isFalse (fun hh => ht (List.cons.inj hh).2)
      | .isFalse hv => .isFalse (fun hh => hv (congrArg Prod.snd (List.cons.inj hh).1))
    else .isFalse (fun hh => hk (congrArg Prod.fst (List.cons.inj hh).1))

end

instance : DecidableEq PyVal := PyVal.decEq

/-- Python truthiness (`bool(v)`): `None`, `""`, `0`, `[]` and `\x7b\x7d` are
falsy, everything else truthy. -/
def pyTruthy : PyVal → Bool
  | .none => false
  | .str s => !s.isEmpty
  | .int n => n != 0
  | .list xs => !xs.isEmpty
  | .dict es => !es.isEmpty

/-- Python `str.lower()` (restricted to the ASCII case mapping, which is what
the identity strings involved here exercise). -/
def pyLower (s : String) : String := ⟨s.data.map Char.toLower⟩

/-- Python `s.endswith(suffix)`. -/
def pyEndsWith (s suffix : String) : Bool := suffix.data.isSuffixOf s.data

/-- Python `s[: -n]` for `n ≥ 1`: drop the last `n` code points (when `n`
exceeds the length the result is empty, as in Python). -/
def pyDropLast (s : String) (n : Nat) : String := ⟨s.data.take (s.data.length - n)⟩

/-- Python `s.split(sep, 1)` for a one-character separator: split at the first
occurrence only; a list of length 1 when the separator is absent. -/
def pySplit1 (s : String) (sep : Char) : List String :=
  let pre := s.data.takeWhile (· ≠ sep)
  if pre.length = s.data.length then [s]
  else [⟨pre⟩, ⟨s.data.drop (pre.length + 1)⟩]

/-- Python `s.split(sep)` for a one-character separator, over the character
list: always at least one (possibly empty) field. -/
def pySplitChars (l : List Char) (sep : Char) : List (List Char)  :=
  match l with
  | [] => [[]]
  | c :: cs =>
    if c = sep then [] :: pySplitChars cs sep
    else
      match pySplitChars cs sep with
      | g :: gs => (c :: g) :: gs
      | [] => [[c]]

/-- Python `s.split(sep)` for a one-character separator (the source only ever
splits on the literal `"."`). -/
def pySplit (s : String) (sep : Char) : List String :=
  (pySplitChars s.data sep).map fun g => ⟨g⟩

mutual
/-- Python `str(v)` as used by an f-string: strings pass through, `None`
prints as `None`, containers print via `repr` (string quoting approximated,
escape sequences omitted). -/
def pyFStr : PyVal → String
  | .str s => s
  | v => pyRepr v

/-- Python `repr(v)`, approximated: no escape handling inside strings. -/
def pyRepr : PyVal → String
  | .none => "None"
  | .str s => "\x27" ++ s ++ "\x27"
  | .int n => toString n
  | .list xs => "[" ++ pyReprList xs ++ "]"
  | .dict es => "\x7b" ++ pyReprDict es ++ "\x7d"

def pyReprList : List PyVal → String
  | [] => ""
  | [v] => pyRepr v
  | v :: vs => pyRepr v ++ ", " ++ pyReprList vs

def pyReprDict : List (String × PyVal) → String
  | [] => ""
  | [(k, v)] => "\x27" ++ k ++ "\x27: " ++ pyRepr v
  | (k, v) :: es => "\x27" ++ k ++ "\x27: " ++ pyRepr v ++ ", " ++ pyReprDict es
end

/-- May a value be a member of a Python `set` (hashable)?  Lists and dicts
are unhashable. -/
def pyHashable : PyVal → Bool
  | .list _ => false
  | .dict _ => false
  | _ => true

/-- Python `set(v)`: a string yields the set of its one-character substrings,
a list yields the set of its (hashable) elements, a dict yields the set of
its keys; `None` and numbers are not iterable (`TypeError`), and a list with
an unhashable element raises `TypeError`.  The set is represented by its list
of distinct elements. -/
def pySet : PyVal → Except Err (List PyVal)
  | .str s => .ok ((s.data.map (fun c => PyVal.str (String.singleton c))).dedup)
  | .list xs => if xs.all pyHashable then .ok xs.dedup else .error .typeError
  | .dict es => .ok ((es.map (fun e => PyVal.str e.1)).dedup)
  | _ => .error .typeError

/-- The unbound method `dict.get(v, k)`: on a dict, the value at `k` or
Python `None`; on anything that is not a dict, `TypeError`. -/
def dictGet (v : PyVal) (k : String) : Except Err PyVal :=
  match v with
  | .dict es => .ok ((List.lookup k es).getD .none)
  | _ => .error .typeError

/-- `functools.reduce(dict.get, keys, v)`: fold `dict.get` over the key
list, propagating the first `TypeError`. -/
def pyReduceGet (keys : List String) (v : PyVal) : Except Err PyVal :=
  match keys with
  | [] => .ok v
  | k :: ks =>
    match dictGet v k with
    | .ok w => pyReduceGet ks w
    | .error e => .error e

/-- Python `d[k]` on a string-keyed dict: the value, or `KeyError`. -/
def pyIndex (ui : List (String × PyVal)) (k : String) : Except Err PyVal :=
  match List.lookup k ui with
  | some v => .ok v
  | Option.none => .error .keyError

/-! ## GenericOAuthenticator (`src/oauthenticator/generic.py`) -/

/-- The `username_claim` configurable of `GenericOAuthenticator`: either a
string key name or a callable taking the `user_info` dict. -/
inductive UsernameClaim where
  | key (s : String)
  | callable (f : List (String × PyVal) → PyVal)

/-- `GenericOAuthenticator.user_info_to_username` (generic.py lines 86-101):
a callable `username_claim` is applied and its result returned directly; a
string `username_claim` is looked up with `user_info.get(claim, None)` and a
falsy result raises `ValueError`.  (The logged message's interpolation of the
whole `user_info` dict is abbreviated here.) -/
def genericUserInfoToUsername (username_claim : UsernameClaim)
    (user_info : List (String × PyVal)) : Except Err PyVal :=
  match username_claim with
  | .callable f => .ok (f user_info)
  | .key k =>
    let username := (List.lookup k user_info).getD .none
    if pyTruthy username then .ok username
    else .error (.valueError ("No " ++ k ++ " found"))

/-- The `claim_groups_key` configurable of `GenericOAuthenticator`: either a
(possibly dotted) string key or a callable on the `user_info` dict. -/
inductive GroupsKey where
  | path (s : String)
  | callable (f : List (String × PyVal) → PyVal)

/-- `GenericOAuthenticator.get_user_groups` (generic.py lines 103-125):
a callable key yields `set(key(user_info))` (errors uncaught); a string key
is split on `"."` and folded with `reduce(dict.get, ...)`, and any
`TypeError` — from a non-dict intermediate value, from `set()` of a
non-iterable, or from an unhashable element — is caught, logged and turned
into the empty set. -/
def getUserGroups (claim_groups_key : GroupsKey)
    (user_info : List (String × PyVal)) : Except Err (List PyVal) :=
  match claim_groups_key with
  | .callable f => pySet (f user_info)
  | .path p =>
    match pyReduceGet (pySplit p '.') (PyVal.dict user_info) with
    | .ok v =>
      match pySet v with
      | .ok s => .ok s
      | .error _ => .ok []
    | .error _ => .ok []

/-- Python set intersection `user_groups & configured`, where the configured
set holds strings: the members of `user_groups` that are strings appearing in
`configured`. -/
def setInter (user_groups : List PyVal) (configured : List String) : List PyVal :=
  user_groups.filter fun v =>
    match v with
    | .str s => configured.contains s
    | _ => false

/-- Python `any(s)` over a set of values: true iff some member is truthy. -/
def pyAny (s : List PyVal) : Bool := s.any pyTruthy

/-- `GenericOAuthenticator.check_allowed` (generic.py lines 146-161).  The
base-class allow-list outcome (`await super().check_allowed(...)`, an
external collaborator) is passed in as `baseAllowed`.  `allowed_groups` is
the configured set of group names (truthy iff non-empty). -/
def genericCheckAllowed (allowed_groups : List String) (claim_groups_key : GroupsKey)
    (baseAllowed : Bool) (user_info : List (String × PyVal)) : Except Err Bool :=
  if baseAllowed then .ok true
  else if !allowed_groups.isEmpty then do
    let user_groups ← getUserGroups claim_groups_key user_info
    if pyAny (setInter user_groups allowed_groups) then .ok true
    else .ok false
  else .ok false

/-- The parts of the JupyterHub `auth_model` that
`GenericOAuthenticator.update_auth_model` consults: the `admin` entry
(`True`, `False` or `None`) and the stored `user_info` dict
(`auth_model["auth_state"][self.user_auth_state_key]`). -/
structure AuthModel where
  admin : Option Bool
  user_info : List (String × PyVal)
deriving DecidableEq

/-- `GenericOAuthenticator.update_auth_model` (generic.py lines 127-144):
a truthy `auth_model["admin"]` (i.e. `True`) is returned unchanged; otherwise
when `admin_groups` is configured (non-empty) the admin entry becomes exactly
`any(user_groups & admin_groups)`; otherwise the model is unchanged. -/
def updateAuthModel (admin_groups : List String) (claim_groups_key : GroupsKey)
    (auth_model : AuthModel) : Except Err AuthModel :=
  if auth_model.admin = some true then .ok auth_model
  else if !admin_groups.isEmpty then do
    let user_groups ← getUserGroups claim_groups_key auth_model.user_info
    .ok { auth_model with admin := some (pyAny (setInter user_groups admin_groups)) }
  else .ok auth_model

/-- Modelled from the spec: `ClaimExtractor.extract` for a dotted-path
selector (spec section 4.3) — descend nested mappings key by key, returning
`Missing` (here `Option.none`) the instant any intermediate level is not a
mapping or the key is absent. -/
def extractSpec : List String → PyVal → Option PyVal
  | [], v => some v
  | k :: ks, v =>
    match v with
    | .dict es =>
      match List.lookup k es with
      | some w => extractSpec ks w
      | Option.none => Option.none
    | _ => Option.none

/-! ## CILogonOAuthenticator (`src/oauthenticator/cilogon.py`) -/

/-- The `username_derivation` sub-dictionary of one `allowed_idps` entry.
`username_claim` is always present (the configuration schema requires it);
`action`, `domain` and the prefix are optional dictionary entries.  The
source dictionary key `prefix` is a Lean keyword, hence the field name
`prefix_val`. -/
structure UsernameDerivation where
  username_claim : String
  action : Option String := Option.none
  domain : Option String := Option.none
  prefix_val : Option String := Option.none
deriving DecidableEq

/-- One validated `allowed_idps` entry: the schema requires
`username_derivation`, while `allowed_domains` is optional.  A value of this
type corresponds to a non-empty Python dict, hence is always truthy. -/
structure IdpConfig where
  username_derivation : UsernameDerivation
  allowed_domains : Option (List String) := Option.none
deriving DecidableEq

/-- `self.allowed_idps.get(user_idp)` for an arbitrary claim value used as
the key: only a string key can be found; list/dict keys are unhashable
(`TypeError`); other values are simply absent. -/
def allowedIdpsGet (idps : List (String × IdpConfig)) (k : PyVal) :
    Except Err (Option IdpConfig) :=
  match k with
  | .str s => .ok (List.lookup s idps)
  | .list _ => .error .typeError
  | .dict _ => .error .typeError
  | _ => .ok Option.none

/-- `self.allowed_idps[user_idp]`: as `allowedIdpsGet`, but an absent key
raises `KeyError`. -/
def allowedIdpsIndex (idps : List (String × IdpConfig)) (k : PyVal) :
    Except Err IdpConfig :=
  match allowedIdpsGet idps k with
  | .ok (some cfg) => .ok cfg
  | .ok Option.none => .error .keyError
  | .error e => .error e

/-- `CILogonOAuthenticator._user_info_to_unprocessed_username` (cilogon.py
lines 315-329): fetch the idp-specific `username_claim` value with
`user_info.get(...)` and raise `HTTPError(500)` when it is falsy.  (The
logged listing of `user_info.keys()` is abbreviated away in the message.) -/
def userInfoToUnprocessedUsername (idps : List (String × IdpConfig))
    (user_info : List (String × PyVal)) : Except Err PyVal := do
  let user_idp ← pyIndex user_info "idp"
  let cfg ← allowedIdpsIndex idps user_idp
  let claim := cfg.username_derivation.username_claim
  let username := (List.lookup claim user_info).getD .none
  if pyTruthy username then .ok username
  else .error (.httpError 500 ("Configured username_claim " ++ claim ++ " for "
    ++ pyFStr user_idp ++ " was not found in the response"))

/-- The action dispatch at the heart of
`CILogonOAuthenticator._get_processed_username` (cilogon.py lines 339-349):
`strip_idp_domain` strips a case-insensitively matching `"@" + domain`
suffix (string methods `lower`/`endswith` raise `AttributeError` on a
non-string username); `prefix` prepends `prefix + ":"` via an f-string; any
other action (including the absence of one) leaves the username unchanged.
A missing `domain`/prefix entry raises `KeyError` as the source dict
indexing would. -/
def getProcessedUsernameAction (ud : UsernameDerivation) (username : PyVal) :
    Except Err PyVal :=
  match ud.action with
  | some a =>
    if a = "strip_idp_domain" then
      match ud.domain with
      | Option.none => .error .keyError
      | some d =>
        match username with
        | .str s =>
          let domain_suffix := "@" ++ d
          if pyEndsWith (pyLower s) (pyLower domain_suffix) then
            .ok (.str (pyDropLast s domain_suffix.length))
          else .ok (.str s)
        | _ => .error .attributeError
    else if a = "prefix" then
      match ud.prefix_val with
      | Option.none => .error .keyError
      | some p => .ok (.str (p ++ ":" ++ pyFStr username))
    else .ok username
  | Option.none => .ok username

/-- `CILogonOAuthenticator._get_processed_username` (cilogon.py lines
331-349): look the idp-specific `username_derivation` up again from
`user_info` and apply the action dispatch. -/
def getProcessedUsername (idps : List (String × IdpConfig)) (username : PyVal)
    (user_info : List (String × PyVal)) : Except Err PyVal := do
  let user_idp ← pyIndex user_info "idp"
  let cfg ← allowedIdpsIndex idps user_idp
  getProcessedUsernameAction cfg.username_derivation username

/-- `CILogonOAuthenticator.user_info_to_username` (cilogon.py lines
286-313): a falsy `idp` claim or an idp absent from `allowed_idps` raises
`HTTPError(500)`; otherwise the unprocessed username is derived and the
configured action applied.  (A validated `IdpConfig` is a non-empty dict,
so `if not self.allowed_idps.get(user_idp)` is falsy exactly on absence.) -/
def userInfoToUsername (idps : List (String × IdpConfig))
    (user_info : List (String × PyVal)) : Except Err PyVal := do
  let user_idp := (List.lookup "idp" user_info).getD .none
  if !pyTruthy user_idp then
    .error (.httpError 500 "\x27idp\x27 claim was not part of the response to the userdata_url")
  else do
    let cfgOpt ← allowedIdpsGet idps user_idp
    match cfgOpt with
    | Option.none =>
      .error (.httpError 500 ("Login with identity provider " ++ pyFStr user_idp
        ++ " is not pre-configured"))
    | some _ => do
      let unprocessed ← userInfoToUnprocessedUsername idps user_info
      getProcessedUsername idps unprocessed user_info

/-- `CILogonOAuthenticator.check_allowed` (cilogon.py lines 351-373).  The
base-class allow-list outcome is passed in as `baseAllowed`; `user_info`
stands for `auth_model["auth_state"][self.user_auth_state_key]`.  When
`allowed_domains` is configured (truthy), the unprocessed username is split
on the first `"@"` and `[1]` is taken — which raises `IndexError` when no
`"@"` is present — then the lowercased domain is tested verbatim against
the configured list: membership allows, otherwise `HTTPError(403)`. -/
def cilogonCheckAllowed (idps : List (String × IdpConfig)) (baseAllowed : Bool)
    (user_info : List (String × PyVal)) : Except Err Bool :=
  if baseAllowed then .ok true
  else do
    let user_idp ← pyIndex user_info "idp"
    let cfg ← allowedIdpsIndex idps user_idp
    match cfg.allowed_domains with
    | some doms =>
      if doms.isEmpty then .ok false
      else do
        let unprocessed ← userInfoToUnprocessedUsername idps user_info
        match unprocessed with
        | .str s =>
          match (pySplit1 s '@')[1]? with
          | some after =>
            let user_domain := pyLower after
            if doms.contains user_domain then .ok true
            else .error (.httpError 403 ("Login with domain @" ++ user_domain
              ++ " is not allowed"))
          | Option.none => .error .indexError
        | _ => .error .attributeError
    | Option.none => .ok false

/-- A configuration-load failure of `_validate_allowed_idps` (the source
raises `ValueError`; the constructor records which check failed and for
which entity ID). -/
inductive CfgErr where
  | emptyIdps
  | schemaError (entityId : String)
  | invalidEntityId (entityId : String)
deriving DecidableEq

/-- A character permitted in a URL scheme by `urllib.parse`
(`scheme_chars`): ASCII letters, digits, `+`, `-`, `.`. -/
def schemeChar (c : Char) : Bool := c.isAlpha || c.isDigit || c == '+' || c == '-' || c == '.'

/-- `urllib.parse.urlparse(url).scheme`: the text before the first `":"`,
lowercased, provided the colon exists, the text is non-empty, starts with an
ASCII letter and consists of scheme characters; otherwise `""`. -/
def urlScheme (url : String) : String :=
  let pre := url.data.takeWhile (· ≠ ':')
  if pre.length < url.data.length ∧ pre ≠ [] ∧
     (pre.headD ' ').isAlpha = true ∧ pre.all schemeChar = true then
    ⟨pre.map Char.toLower⟩
  else ""

/-- The entity-ID scheme constraint of `_validate_allowed_idps` (cilogon.py
lines 219-230): the parsed scheme must be `urn`, `https` or `http`. -/
def validScheme (entity_id : String) : Bool :=
  ["urn", "https", "http"].contains (urlScheme entity_id)

/-- Modelled from the spec: the jsonschema validation of one `allowed_idps`
entry (the schema file `schemas/cilogon-schema.yaml` is not part of the
sources; spec sections 3 and 4.1): `username_claim` always required (the
structure carries it), `domain` required iff the action is
`strip_idp_domain`, the prefix required iff the action is `prefix`, and the
action must be one of those two when given. -/
def schemaValidate (ud : UsernameDerivation) : Bool :=
  match ud.action with
  | Option.none => true
  | some "strip_idp_domain" => ud.domain.isSome
  | some "prefix" => ud.prefix_val.isSome
  | some _ => false

/-- The per-entry loop of `_validate_allowed_idps` (cilogon.py lines
210-230): each entry is schema-validated, then its entity-ID scheme is
checked; the first failure aborts the whole validation. -/
def validateEntries : List (String × IdpConfig) → Except CfgErr Unit
  | [] => .ok ()
  | (entity_id, cfg) :: rest =>
    if !schemaValidate cfg.username_derivation then .error (.schemaError entity_id)
    else if !validScheme entity_id then .error (.invalidEntityId entity_id)
    else validateEntries rest

/-- `CILogonOAuthenticator._validate_allowed_idps` (cilogon.py lines
203-232): an empty `allowed_idps` is rejected outright; otherwise every
entry is validated in order and the original mapping is returned intact on
success. -/
def validateAllowedIdps (idps : List (String × IdpConfig)) :
    Except CfgErr (List (String × IdpConfig)) :=
  if idps.isEmpty then .error .emptyIdps
  else
    match validateEntries idps with
    | .ok _ => .ok idps
    | .error e => .error e

/-! ## Claim theorems -/

/-- C1: for every provider config and raw claim value, the username action is
applied as specified — no action or action `"none"` returns the raw value
unchanged; `strip_idp_domain` removes a case-insensitively matching
`"@" + domain` suffix (witnessed by a decomposition of the raw value) and
otherwise returns the raw value unchanged without error; `prefix` returns
the configured prefix, a literal colon, then the raw value. -/
theorem getProcessedUsernameAction_correct :
    (∀ (ud : UsernameDerivation) (raw : String),
      ud.action = Option.none ∨ ud.action = some "none" →
      getProcessedUsernameAction ud (.str raw) = .ok (.str raw)) ∧
    (∀ (ud : UsernameDerivation) (d raw : String),
      ud.action = some "strip_idp_domain" → ud.domain = some d →
      (pyEndsWith (pyLower raw) (pyLower ("@" ++ d)) = true →
        ∃ res suf : String,
          getProcessedUsernameAction ud (.str raw) = .ok (.str res) ∧
          raw = res ++ suf ∧ pyLower suf = pyLower ("@" ++ d)) ∧
      (pyEndsWith (pyLower raw) (pyLower ("@" ++ d)) = false →
        getProcessedUsernameAction ud (.str raw) = .ok (.str raw))) ∧
    (∀ (ud : UsernameDerivation) (p raw : String),
      ud.action = some "prefix" → ud.prefix_val = some p →
      getProcessedUsernameAction ud (.str raw) = .ok (.str (p ++ ":" ++ raw))) := by
  refine ⟨?_, ?_, ?_⟩
  · rintro ud raw (h | h)
    · unfold getProcessedUsernameAction
      rw [h]
    · unfold getProcessedUsernameAction
      rw [h]
      rfl
  · intro ud d raw ha hd
    constructor
    · intro hend
      have hsuf : (pyLower ("@" ++ d)).data <:+ (pyLower raw).data :=
        List.isSuffixOf_iff_suffix.mp hend
      obtain ⟨t, ht⟩ := hsuf
      have hlen : t.length + ("@" ++ d).data.length = raw.data.length := by
        have h2 := congrArg List.length ht
        simpa [pyLower] using h2
      refine ⟨⟨raw.data.take (raw.data.length - ("@" ++ d).data.length)⟩,
              ⟨raw.data.drop (raw.data.length - ("@" ++ d).data.length)⟩, ?_, ?_, ?_⟩
      · unfold getProcessedUsernameAction
        rw [ha, hd]
        simp only [hend, reduceIte]
        rfl
      · apply String.ext
        simp [String.data_append]
      · apply String.ext
        have htlen : t.length = raw.data.length - ("@" ++ d).data.length := by omega
        show (raw.data.drop (raw.data.length - ("@" ++ d).data.length)).map Char.toLower
          = ("@" ++ d).data.map Char.toLower
        calc (raw.data.drop (raw.data.length - ("@" ++ d).data.length)).map Char.toLower
            = (raw.data.map Char.toLower).drop (raw.data.length - ("@" ++ d).data.length) :=
              List.map_drop ..
          _ = (t ++ ("@" ++ d).data.map Char.toLower).drop t.length := by
              rw [← htlen]
              have hht : t ++ ("@" ++ d).data.map Char.toLower = raw.data.map Char.toLower := ht
              rw [hht]
          _ = ("@" ++ d).data.map Char.toLower := List.drop_left ..
    · intro hend
      unfold getProcessedUsernameAction
      rw [ha, hd]
      simp [hend]
  · intro ud p raw ha hp
    unfold getProcessedUsernameAction
    rw [ha, hp]
    rfl

/-- C1 witness: the spec examples — prefix `"gh"` turns `"octocat"` into
`"gh:octocat"`, and `strip_idp_domain` with domain `"utoronto.ca"` leaves
`"alice@otherdomain.edu"` unchanged. -/
theorem getProcessedUsernameAction_correct_witness :
    getProcessedUsernameAction ⟨"username", some "prefix", Option.none, some "gh"⟩
      (.str "octocat") = .ok (.str "gh:octocat") ∧
    getProcessedUsernameAction ⟨"email", some "strip_idp_domain", some "utoronto.ca", Option.none⟩
      (.str "alice@otherdomain.edu") = .ok (.str "alice@otherdomain.edu") :=
  ⟨getProcessedUsernameAction_correct.2.2 ⟨"username", some "prefix", Option.none, some "gh"⟩
      "gh" "octocat" rfl rfl,
   (getProcessedUsernameAction_correct.2.1 ⟨"email", some "strip_idp_domain", some "utoronto.ca",
      Option.none⟩ "utoronto.ca" "alice@otherdomain.edu" rfl rfl).2 (by decide)⟩

/-- C5: for every claims document that lacks a (truthy) `idp` claim, or whose
`idp` names a provider absent from `allowed_idps`, `user_info_to_username`
aborts with `HTTPError(500)` — it never produces a fallback username. -/
theorem userInfoToUsername_server_errors :
    ∀ (idps : List (String × IdpConfig)) (user_info : List (String × PyVal)),
      (pyTruthy ((List.lookup "idp" user_info).getD .none) = false →
        userInfoToUsername idps user_info =
          .error (.httpError 500 "\x27idp\x27 claim was not part of the response to the userdata_url")) ∧
      (∀ s : String, List.lookup "idp" user_info = some (.str s) →
        pyTruthy (.str s) = true → List.lookup s idps = Option.none →
        userInfoToUsername idps user_info =
          .error (.httpError 500 ("Login with identity provider " ++ s ++ " is not pre-configured"))) := by
  intro idps ui
  constructor
  · intro h
    unfold userInfoToUsername
    simp only [h, Bool.not_false, if_true]
  · intro s hlk ht hidps
    unfold userInfoToUsername
    simp only [hlk, Option.getD_some, ht, Bool.not_true, Bool.false_eq_true, if_false,
      allowedIdpsGet, hidps, Except.bind]
    rfl

/-- C5 witness: a document naming an unconfigured provider aborts with a
500-class error. -/
theorem userInfoToUsername_server_errors_witness :
    userInfoToUsername [] [("idp", PyVal.str "https://example.org/idp")] =
      .error (.httpError 500
        "Login with identity provider https://example.org/idp is not pre-configured") :=
  (userInfoToUsername_server_errors [] [("idp", PyVal.str "https://example.org/idp")]).2
    "https://example.org/idp" rfl (by decide) rfl

/-- C2 (amended): for a string username selector — the flat-key lookup of the
generic authenticator, and the per-idp `username_claim` of the CILogon
authenticator — a missing or empty claim value is a hard error, and any
returned username is truthy (never empty or `None`).  A callable selector is
exempt: its return value is passed through unchecked (see the
counterexample). -/
theorem username_derivation_never_falsy :
    (∀ (k : String) (user_info : List (String × PyVal)) (v : PyVal),
      genericUserInfoToUsername (.key k) user_info = .ok v → pyTruthy v = true) ∧
    (∀ (idps : List (String × IdpConfig)) (user_info : List (String × PyVal)) (v : PyVal),
      userInfoToUnprocessedUsername idps user_info = .ok v → pyTruthy v = true) := by
  constructor
  · intro k ui v h
    unfold genericUserInfoToUsername at h
    by_cases ht : pyTruthy ((List.lookup k ui).getD .none) = true
    · simp only [ht, if_true, Except.ok.injEq] at h
      rw [← h]
      exact ht
    · simp only [Bool.not_eq_true] at ht
      simp [ht] at h
  · intro idps ui v h
    unfold userInfoToUnprocessedUsername at h
    cases h1 : pyIndex ui "idp" with
    | error e =>
      rw [h1] at h
      simp only [Bind.bind, Except.bind] at h
      exact absurd h (by simp)
    | ok idp =>
      rw [h1] at h
      simp only [Bind.bind, Except.bind] at h
      cases h2 : allowedIdpsIndex idps idp with
      | error e =>
        rw [h2] at h
        simp only [Bind.bind, Except.bind] at h
        exact absurd h (by simp)
      | ok cfg =>
        rw [h2] at h
        simp only [Bind.bind, Except.bind] at h
        by_cases ht :
            pyTruthy ((List.lookup cfg.username_derivation.username_claim ui).getD .none) = true
        · simp only [ht, if_true, Except.ok.injEq] at h
          rw [← h]
          exact ht
        · simp only [Bool.not_eq_true] at ht
          simp [ht] at h

/-- C2 witness: a present, non-empty string claim yields a truthy username
through the flat-key selector. -/
theorem username_derivation_never_falsy_witness :
    genericUserInfoToUsername (.key "username") [("username", PyVal.str "octocat")]
      = .ok (PyVal.str "octocat") ∧
    pyTruthy (PyVal.str "octocat") = true :=
  ⟨rfl, username_derivation_never_falsy.1 "username" [("username", PyVal.str "octocat")]
    (PyVal.str "octocat") rfl⟩

/-- C2 counterexample: a callable `username_claim` returning the empty string
is passed through by `user_info_to_username` with no error, so derivation can
return an empty-string username — refuting the claim for callable
selectors. -/
theorem genericUserInfoToUsername_callable_empty :
    genericUserInfoToUsername (.callable fun _ => PyVal.str "") [] = .ok (PyVal.str "") ∧
    pyTruthy (PyVal.str "") = false :=
  ⟨rfl, by decide⟩

/-- C6 (amended): when the base allow-list already grants access the result
is `allowed = true`; otherwise, with `allowed_groups` configured and group
computation succeeding, the decision is `any(user_groups & allowed_groups)`
— allowed exactly when the intersection contains a truthy (non-empty-string)
group; with no `allowed_groups` the default is deny. -/
theorem genericCheckAllowed_correct :
    ∀ (allowed_groups : List String) (key : GroupsKey) (user_info : List (String × PyVal)),
      (genericCheckAllowed allowed_groups key true user_info = .ok true) ∧
      (allowed_groups = [] →
        genericCheckAllowed allowed_groups key false user_info = .ok false) ∧
      (∀ gs, allowed_groups ≠ [] → getUserGroups key user_info = .ok gs →
        genericCheckAllowed allowed_groups key false user_info =
          .ok (pyAny (setInter gs allowed_groups))) := by
  intro ag key ui
  refine ⟨rfl, ?_, ?_⟩
  · intro h
    unfold genericCheckAllowed
    simp [h]
  · intro gs hne hgs
    unfold genericCheckAllowed
    have hempty : ag.isEmpty = false := by
      cases ag with
      | nil => exact absurd rfl hne
      | cons a as => rfl
    simp only [if_false, Bool.false_eq_true, hempty, Bool.not_false, if_true, hgs,
      Bind.bind, Except.bind]
    cases hany : pyAny (setInter gs ag) <;> simp [hany]

/-- C6 witness: the spec example — `allowed_groups = {"staff"}` and document
groups `{"staff", "alumni"}` give `allowed = true`. -/
theorem genericCheckAllowed_correct_witness :
    genericCheckAllowed ["staff"] (.path "groups") false
        [("groups", PyVal.list [PyVal.str "staff", PyVal.str "alumni"])] =
      .ok (pyAny (setInter [PyVal.str "staff", PyVal.str "alumni"] ["staff"])) ∧
    pyAny (setInter [PyVal.str "staff", PyVal.str "alumni"] ["staff"]) = true :=
  ⟨(genericCheckAllowed_correct ["staff"] (.path "groups")
      [("groups", PyVal.list [PyVal.str "staff", PyVal.str "alumni"])]).2.2
      [PyVal.str "staff", PyVal.str "alumni"] (by simp) (by rfl),
   by decide⟩

/-- C6 counterexample: with `allowed_groups = \x7b""\x7d` and document groups
`\x7b""\x7d` the intersection is non-empty, yet `any` over it is false because
the empty string is falsy, so the decision is `allowed = false` — refuting
"non-empty intersection implies allowed". -/
theorem genericCheckAllowed_empty_string_group :
    getUserGroups (.path "groups") [("groups", PyVal.list [PyVal.str ""])] =
      .ok [PyVal.str ""] ∧
    setInter [PyVal.str ""] [""] ≠ [] ∧
    genericCheckAllowed [""] (.path "groups") false [("groups", PyVal.list [PyVal.str ""])] =
      .ok false :=
  ⟨by rfl, by decide, by rfl⟩

/-- C7 (amended): `update_auth_model` keeps an already-true admin flag
regardless of groups; with no `admin_groups` configured the prior admin
value is untouched; otherwise the admin flag becomes exactly
`any(user_groups & admin_groups)` — true exactly when the intersection
contains a truthy (non-empty-string) group, which can also revoke a
previously-unset flag by setting it to false. -/
theorem updateAuthModel_correct :
    ∀ (admin_groups : List String) (key : GroupsKey) (m : AuthModel),
      (m.admin = some true → updateAuthModel admin_groups key m = .ok m) ∧
      (admin_groups = [] → updateAuthModel admin_groups key m = .ok m) ∧
      (∀ gs, m.admin ≠ some true → admin_groups ≠ [] →
        getUserGroups key m.user_info = .ok gs →
        updateAuthModel admin_groups key m =
          .ok { m with admin := some (pyAny (setInter gs admin_groups)) }) := by
  intro ag key m
  refine ⟨?_, ?_, ?_⟩
  · intro h
    unfold updateAuthModel
    simp [h]
  · intro h
    unfold updateAuthModel
    by_cases hm : m.admin = some true <;> simp [h, hm]
  · intro gs hadmin hne hgs
    unfold updateAuthModel
    have hempty : ag.isEmpty = false := by
      cases ag with
      | nil => exact absurd rfl hne
      | cons a as => rfl
    simp only [hadmin, if_false, hempty, Bool.not_false, if_true, hgs, Bind.bind, Except.bind]

/-- C7 witness: the spec example — prior admin `false`, `admin_groups =
{"ops"}`, document groups `{"ops"}` set the admin flag to true. -/
theorem updateAuthModel_correct_witness :
    updateAuthModel ["ops"] (.path "groups")
        ⟨some false, [("groups", PyVal.list [PyVal.str "ops"])]⟩ =
      .ok ⟨some (pyAny (setInter [PyVal.str "ops"] ["ops"])),
           [("groups", PyVal.list [PyVal.str "ops"])]⟩ ∧
    pyAny (setInter [PyVal.str "ops"] ["ops"]) = true :=
  ⟨(updateAuthModel_correct ["ops"] (.path "groups")
      ⟨some false, [("groups", PyVal.list [PyVal.str "ops"])]⟩).2.2
      [PyVal.str "ops"] (by simp) (by simp) (by rfl),
   by decide⟩

/-- C7 counterexample: prior admin `false`, `admin_groups = \x7b""\x7d` and
document groups `\x7b""\x7d` — the intersection is non-empty, so the claim
requires the admin flag to become true, but `any` over it is false and the
code sets the flag to false. -/
theorem updateAuthModel_empty_string_group :
    setInter [PyVal.str ""] [""] ≠ [] ∧
    updateAuthModel [""] (.path "groups")
        ⟨some false, [("groups", PyVal.list [PyVal.str ""])]⟩ =
      .ok ⟨some false, [("groups", PyVal.list [PyVal.str ""])]⟩ :=
  ⟨by decide, by rfl⟩

/-- Whenever the spec-level dotted-path extraction reports `Missing`, the
fold of `dict.get` either raises `TypeError` immediately, or ends on Python
`None` (whose `set()` conversion then raises `TypeError`). -/
theorem pyReduceGet_none_of_extractSpec_none :
    ∀ (ks : List String) (v : PyVal), extractSpec ks v = Option.none →
      pyReduceGet ks v = .error Err.typeError ∨ pyReduceGet ks v = .ok PyVal.none := by
  intro ks
  induction ks with
  | nil => intro v h; simp [extractSpec] at h
  | cons k ks ih =>
    intro v h
    cases v with
    | dict es =>
      simp only [extractSpec] at h
      cases hlk : List.lookup k es with
      | some w =>
        rw [hlk] at h
        have hih := ih w h
        simp only [pyReduceGet, dictGet, hlk, Option.getD_some]
        exact hih
      | none =>
        simp only [pyReduceGet, dictGet, hlk, Option.getD_none]
        cases ks with
        | nil => right; rfl
        | cons k2 ks2 => left; rfl
    | none => left; rfl
    | str s => left; rfl
    | int n => left; rfl
    | list xs => left; rfl

/-- Whenever the spec-level dotted-path extraction succeeds, the fold of
`dict.get` computes the same value. -/
theorem pyReduceGet_of_extractSpec_some :
    ∀ (ks : List String) (v w : PyVal), extractSpec ks v = some w →
      pyReduceGet ks v = .ok w := by
  intro ks
  induction ks with
  | nil => intro v w h; simp [extractSpec] at h; rw [h]; rfl
  | cons k ks ih =>
    intro v w h
    cases v with
    | dict es =>
      simp only [extractSpec] at h
      cases hlk : List.lookup k es with
      | some u =>
        rw [hlk] at h
        simp only [pyReduceGet, dictGet, hlk, Option.getD_some]
        exact ih u w h
      | none => rw [hlk] at h; exact absurd h (by simp)
    | none => exact absurd h (by simp [extractSpec])
    | str s => exact absurd h (by simp [extractSpec])
    | int n => exact absurd h (by simp [extractSpec])
    | list xs => exact absurd h (by simp [extractSpec])

/-- C9 (amended): dotted-path group extraction descends nested mappings key
by key and agrees with the spec-level extractor on success; but whenever the
spec-level extractor reports `Missing` — an intermediate level that is not a
mapping, or an absent key — `get_user_groups` returns the empty set (a
substitute value, after logging) rather than a distinguished `Missing`
outcome. -/
theorem getUserGroups_missing_is_empty_set :
    ∀ (p : String) (ui : List (String × PyVal)),
      (extractSpec (pySplit p '.') (PyVal.dict ui) = Option.none →
        getUserGroups (.path p) ui = .ok []) ∧
      (∀ w, extractSpec (pySplit p '.') (PyVal.dict ui) = some w →
        pyReduceGet (pySplit p '.') (PyVal.dict ui) = .ok w) := by
  intro p ui
  constructor
  · intro h
    simp only [getUserGroups]
    rcases pyReduceGet_none_of_extractSpec_none _ _ h with h2 | h2
    · rw [h2]
    · rw [h2]
      rfl
  · intro w h
    exact pyReduceGet_of_extractSpec_some _ _ _ h

/-- C9 witness: a document whose `permissions` value is not a mapping makes
the dotted path `permissions.groups` fail, and the group set comes out
empty. -/
theorem getUserGroups_missing_is_empty_set_witness :
    getUserGroups (.path "permissions.groups") [("permissions", PyVal.str "oops")] = .ok [] :=
  (getUserGroups_missing_is_empty_set "permissions.groups"
    [("permissions", PyVal.str "oops")]).1 (by rfl)

/-- C9 counterexample: a document without the `groups` key and a document
with an explicitly empty `groups` list both produce the empty set — there is
no distinguished `Missing` outcome, refuting the claim that extraction
returns `Missing` rather than a substitute value. -/
theorem getUserGroups_missing_indistinguishable :
    getUserGroups (.path "groups") [("name", PyVal.str "x")] = .ok [] ∧
    getUserGroups (.path "groups") [("groups", PyVal.list [])] = .ok [] :=
  ⟨by rfl, by rfl⟩

/-- C10: when the value at the dotted groups path is a string, the computed
group set is the set of its one-character substrings, so a single-character
entry in an allowed-groups set grants access for any groups claim string
containing that character. -/
theorem getUserGroups_string_chars :
    ∀ (p : String) (ui : List (String × PyVal)) (s : String),
      pyReduceGet (pySplit p '.') (PyVal.dict ui) = .ok (.str s) →
      ∃ gs, getUserGroups (.path p) ui = .ok gs ∧
        (∀ v, v ∈ gs ↔ ∃ c ∈ s.data, v = PyVal.str (String.singleton c)) ∧
        (∀ (allowed : List String) (c : Char), c ∈ s.data →
          allowed.contains (String.singleton c) = true →
          genericCheckAllowed allowed (.path p) false ui = .ok true) := by
  intro p ui s h
  have hg : getUserGroups (.path p) ui =
      .ok ((s.data.map fun c => PyVal.str (String.singleton c)).dedup) := by
    simp only [getUserGroups]
    rw [h]
    rfl
  refine ⟨(s.data.map fun c => PyVal.str (String.singleton c)).dedup, hg, ?_, ?_⟩
  · intro v
    simp only [List.mem_dedup, List.mem_map]
    constructor
    · rintro ⟨c, hc, hv⟩; exact ⟨c, hc, hv.symm⟩
    · rintro ⟨c, hc, hv⟩; exact ⟨c, hc, hv.symm⟩
  · intro allowed c hc hcontains
    have hne : allowed.isEmpty = false := by
      cases allowed with
      | nil => simp at hcontains
      | cons a as => rfl
    unfold genericCheckAllowed
    simp only [if_false, hne, Bool.not_false, if_true, hg, Bind.bind, Except.bind,
      Bool.false_eq_true]
    have hmem : PyVal.str (String.singleton c) ∈
        setInter ((s.data.map fun c => PyVal.str (String.singleton c)).dedup) allowed := by
      unfold setInter
      rw [List.mem_filter]
      refine ⟨?_, ?_⟩
      · rw [List.mem_dedup]
        exact List.mem_map_of_mem _ hc
      · exact hcontains
    have htruthy : pyTruthy (PyVal.str (String.singleton c)) = true := by
      show (!(String.singleton c).isEmpty) = true
      rw [Bool.not_eq_true']
      rw [Bool.eq_false_iff]
      intro hemp
      have hstr := (String.isEmpty_iff _).mp hemp
      have hdata := congrArg String.data hstr
      simp [String.singleton] at hdata
    have hany : pyAny (setInter ((s.data.map fun c => PyVal.str (String.singleton c)).dedup)
        allowed) = true := by
      unfold pyAny
      rw [List.any_eq_true]
      exact ⟨_, hmem, htruthy⟩
    rw [hany]
    rfl

/-- C10 witness: document groups claim `"staff"` yields the character set
`{"s","t","a","f"}`, and `allowed_groups = {"a"}` grants access. -/
theorem getUserGroups_string_chars_witness :
    ∃ gs, getUserGroups (.path "groups") [("groups", PyVal.str "staff")] = .ok gs ∧
      (∀ v, v ∈ gs ↔ ∃ c ∈ "staff".data, v = PyVal.str (String.singleton c)) ∧
      (∀ (allowed : List String) (c : Char), c ∈ "staff".data →
        allowed.contains (String.singleton c) = true →
        genericCheckAllowed allowed (.path "groups") false
          [("groups", PyVal.str "staff")] = .ok true) :=
  getUserGroups_string_chars "groups" [("groups", PyVal.str "staff")] "staff" (by rfl)

/-- C3 (amended): when the base allow-list did not grant access and the
provider declares a non-empty `allowed_domains`, the check lowercases the
substring of the unprocessed username after the first `"@"` and tests it
verbatim against `allowed_domains` — so it is case-insensitive in the
username's domain only, not in the configured entries; membership yields
`allowed = true`, non-membership an explicit `HTTPError(403)` denial with a
descriptive reason, never a silent fall-through. -/
theorem cilogonCheckAllowed_domains :
    ∀ (idps : List (String × IdpConfig)) (user_info : List (String × PyVal)) (i : String)
      (cfg : IdpConfig) (doms : List String) (u before after : String),
      List.lookup "idp" user_info = some (.str i) →
      List.lookup i idps = some cfg →
      cfg.allowed_domains = some doms →
      doms ≠ [] →
      userInfoToUnprocessedUsername idps user_info = .ok (.str u) →
      pySplit1 u '@' = [before, after] →
      (doms.contains (pyLower after) = true →
        cilogonCheckAllowed idps false user_info = .ok true) ∧
      (doms.contains (pyLower after) = false →
        cilogonCheckAllowed idps false user_info =
          .error (.httpError 403 ("Login with domain @" ++ pyLower after ++ " is not allowed"))) := by
  intro idps ui i cfg doms u before after hidp hcfg hdoms hdne huser hsplit
  have hempty : doms.isEmpty = false := by
    cases doms with
    | nil => exact absurd rfl hdne
    | cons a as => rfl
  have hbody : cilogonCheckAllowed idps false ui =
      (if doms.contains (pyLower after) then .ok true
       else .error (.httpError 403 ("Login with domain @" ++ pyLower after ++ " is not allowed"))) := by
    unfold cilogonCheckAllowed
    simp only [if_false, Bool.false_eq_true, Bind.bind, Except.bind, pyIndex, hidp,
      allowedIdpsIndex, allowedIdpsGet, hcfg, hdoms, hempty, huser, hsplit]
    rfl
  constructor
  · intro hc
    rw [hbody, if_pos hc]
  · intro hc
    rw [hbody, if_neg (by simp only [hc]; exact Bool.false_ne_true)]

/-- C3 witness: the spec example — `allowed_domains = {"uni.edu"}` with
unprocessed identity `"bob@uni.edu"` gives `allowed = true` with no static
allow-list entry, and `"bob@other.org"` is denied with a 403 reason. -/
theorem cilogonCheckAllowed_domains_witness :
    cilogonCheckAllowed
      [("https://idp.example/x",
        ⟨⟨"email", Option.none, Option.none, Option.none⟩, some ["uni.edu"]⟩)]
      false [("idp", PyVal.str "https://idp.example/x"), ("email", PyVal.str "bob@uni.edu")]
      = .ok true ∧
    cilogonCheckAllowed
      [("https://idp.example/x",
        ⟨⟨"email", Option.none, Option.none, Option.none⟩, some ["uni.edu"]⟩)]
      false [("idp", PyVal.str "https://idp.example/x"), ("email", PyVal.str "bob@other.org")]
      = .error (.httpError 403 "Login with domain @other.org is not allowed") :=
  ⟨(cilogonCheckAllowed_domains
      [("https://idp.example/x",
        ⟨⟨"email", Option.none, Option.none, Option.none⟩, some ["uni.edu"]⟩)]
      [("idp", PyVal.str "https://idp.example/x"), ("email", PyVal.str "bob@uni.edu")]
      "https://idp.example/x"
      ⟨⟨"email", Option.none, Option.none, Option.none⟩, some ["uni.edu"]⟩
      ["uni.edu"] "bob@uni.edu" "bob" "uni.edu"
      rfl rfl rfl (by simp) (by rfl) (by rfl)).1 (by rfl),
   (cilogonCheckAllowed_domains
      [("https://idp.example/x",
        ⟨⟨"email", Option.none, Option.none, Option.none⟩, some ["uni.edu"]⟩)]
      [("idp", PyVal.str "https://idp.example/x"), ("email", PyVal.str "bob@other.org")]
      "https://idp.example/x"
      ⟨⟨"email", Option.none, Option.none, Option.none⟩, some ["uni.edu"]⟩
      ["uni.edu"] "bob@other.org" "bob" "other.org"
      rfl rfl rfl (by simp) (by rfl) (by rfl)).2 (by rfl)⟩

/-- C3 counterexample: with `allowed_domains = {"UNI.EDU"}` and unprocessed
identity `"bob@uni.edu"`, the domains match case-insensitively, yet the code
lowercases only the user's side and tests verbatim membership, so login is
denied — refuting the claim that the comparison is case-insensitive. -/
theorem cilogonCheckAllowed_domains_case_sensitive :
    pyLower "uni.edu" = pyLower "UNI.EDU" ∧
    cilogonCheckAllowed
      [("https://idp.example/x",
        ⟨⟨"email", Option.none, Option.none, Option.none⟩, some ["UNI.EDU"]⟩)]
      false [("idp", PyVal.str "https://idp.example/x"), ("email", PyVal.str "bob@uni.edu")]
      = .error (.httpError 403 "Login with domain @uni.edu is not allowed") :=
  ⟨by rfl, by rfl⟩

/-- C4: a provider with `allowed_domains` configured and an unprocessed
username containing no `"@"` makes `check_allowed` evaluate
`unprocessed_username.split("@", 1)[1]`, which raises an uncaught
`IndexError` instead of skipping the check — the code crashes where the
claim says the decision falls through to the remaining checks. -/
theorem cilogonCheckAllowed_no_at_indexerror :
    cilogonCheckAllowed
      [("https://idp.example/x",
        ⟨⟨"username", Option.none, Option.none, Option.none⟩, some ["uni.edu"]⟩)]
      false [("idp", PyVal.str "https://idp.example/x"), ("username", PyVal.str "bob")]
      = .error .indexError := by rfl

/-- The per-entry validation loop fails on the first entry whose entity-ID
scheme is invalid, provided every earlier entry passes both checks. -/
theorem validateEntries_first_bad_scheme :
    ∀ (pre post : List (String × IdpConfig)) (eid : String) (cfg : IdpConfig),
      (∀ e ∈ pre, schemaValidate e.2.username_derivation = true ∧ validScheme e.1 = true) →
      schemaValidate cfg.username_derivation = true →
      validScheme eid = false →
      validateEntries (pre ++ (eid, cfg) :: post) = .error (.invalidEntityId eid) := by
  intro pre
  induction pre with
  | nil =>
    intro post eid cfg hpre hschema hscheme
    simp only [List.nil_append, validateEntries, hschema, hscheme, Bool.not_true,
      Bool.not_false, Bool.false_eq_true, if_false, if_true]
  | cons e pre ih =>
    intro post eid cfg hpre hschema hscheme
    obtain ⟨e1, e2⟩ := e
    obtain ⟨hs, hv⟩ := hpre (e1, e2) (List.mem_cons_self ..)
    simp only [List.cons_append, validateEntries, hs, hv, Bool.not_true, Bool.false_eq_true,
      if_false]
    exact ih post eid cfg (fun x hx => hpre x (List.mem_cons_of_mem _ hx)) hschema hscheme

/-- C8: registry validation rejects an empty provider set with a
configuration error; it rejects the whole configuration at the first entry
whose entity-ID scheme is not one of `urn`, `https`, `http`; and on success
it returns the input configuration unchanged — so no partial registry is
ever produced. -/
theorem validateAllowedIdps_correct :
    (validateAllowedIdps [] = .error .emptyIdps) ∧
    (∀ (pre post : List (String × IdpConfig)) (eid : String) (cfg : IdpConfig),
      (∀ e ∈ pre, schemaValidate e.2.username_derivation = true ∧ validScheme e.1 = true) →
      schemaValidate cfg.username_derivation = true →
      validScheme eid = false →
      validateAllowedIdps (pre ++ (eid, cfg) :: post) = .error (.invalidEntityId eid)) ∧
    (∀ idps out, validateAllowedIdps idps = .ok out → out = idps) := by
  refine ⟨rfl, ?_, ?_⟩
  · intro pre post eid cfg hpre hschema hscheme
    have hne : (pre ++ (eid, cfg) :: post).isEmpty = false := by
      cases pre <;> rfl
    unfold validateAllowedIdps
    simp only [hne, Bool.false_eq_true, if_false,
      validateEntries_first_bad_scheme pre post eid cfg hpre hschema hscheme]
  · intro idps out h
    unfold validateAllowedIdps at h
    by_cases he : idps.isEmpty = true
    · simp [he] at h
    · simp only [he, Bool.false_eq_true, if_false] at h
      cases hv : validateEntries idps with
      | ok u =>
        rw [hv] at h
        simp only [Except.ok.injEq] at h
        exact h.symm
      | error e =>
        rw [hv] at h
        simp at h

/-- C8 witness: a configuration with one valid `https` provider followed by
an `ftp` entity ID is rejected wholesale, naming the offending entry. -/
theorem validateAllowedIdps_correct_witness :
    validateAllowedIdps
      [("https://idp.example/x", ⟨⟨"email", Option.none, Option.none, Option.none⟩, Option.none⟩),
       ("ftp://files.example", ⟨⟨"email", Option.none, Option.none, Option.none⟩, Option.none⟩)]
      = .error (.invalidEntityId "ftp://files.example") :=
  validateAllowedIdps_correct.2.1
    [("https://idp.example/x", ⟨⟨"email", Option.none, Option.none, Option.none⟩, Option.none⟩)]
    [] "ftp://files.example" ⟨⟨"email", Option.none, Option.none, Option.none⟩, Option.none⟩
    (by decide) (by rfl) (by decide)
